import Mathlib

/-!
Shallow embedding of `src/a.rs` from the `rust-c-ares` repository: the A-record
result type `AResults`, its borrowing and owning iterators, `parse_from`, the
`Drop` implementation, and the completion callback `query_a_callback`.

Foreign memory is modelled explicitly: `Mem` gives the contents of the
`hostent` structures, the null-terminated address-pointer array, and the raw
bytes behind each address cell.  Pointers are natural numbers, with `0` the
null pointer.  Every function that in Rust dereferences raw pointers takes the
memory as an explicit argument and returns it, so that "reads only, never
writes" is a theorem rather than a convention.

The foreign routines `ares_parse_a_reply`, `ares_error` and
`ares_free_hostent` live outside this repository; they are abstracted as
parameters (`fp` for the parser, `em` for the error mapper) and as entries of
an explicit trace of foreign calls (`FCall`).
-/

/-- The foreign success status `c_ares_sys::ARES_SUCCESS` (the value `0` in
c-ares; only its comparison against other statuses matters here). -/
def ARES_SUCCESS : Int := 0

/-- Rust's `data.len() as libc::c_int`: a `usize` truncated to its low 32 bits
and reinterpreted as a two's-complement signed 32-bit integer. -/
def usize_to_c_int (n : Nat) : Int :=
  let m : Nat := n % 2 ^ 32
  if m < 2 ^ 31 then (m : Int) else (m : Int) - 2 ^ 32

/-- Rust's `alen as usize` on a 64-bit platform: a `c_int` reinterpreted as an
unsigned 64-bit integer (two's complement). -/
def c_int_to_usize (i : Int) : Nat :=
  (i % 2 ^ 64).toNat

/-- The `std::net::Ipv4Addr` octets, as built by `Ipv4Addr::new(a, b, c, d)`;
`a` is the first (most significant, big-endian) octet. -/
structure Ipv4Addr where
  a : Nat
  b : Nat
  c : Nat
  d : Nat
  deriving DecidableEq, Repr

/-- The foreign `hostent` structure: a pointer to the C hostname string and
the base of the null-terminated address-pointer array (`h_addr_list`). -/
structure Hostent where
  h_name : Nat
  h_addr_list : Nat
  deriving Repr

/-- Foreign memory: the `hostent` at each pointer, the pointer stored in each
slot of the address-pointer array space, and the byte at each offset behind a
raw `*mut c_char`.  `0` is the null pointer / null sentinel. -/
structure Mem where
  hostentAt : Nat → Hostent
  addrList : Nat → Nat
  byte : Nat → Nat → Nat

/-- Embedding of the record type: a single wrapped `hostent` pointer. -/
structure AResults where
  hostent : Nat
  deriving DecidableEq, Repr

/-- The borrowing iterator `AResultsIterator`: only the `next` cursor (a slot
index into the address-pointer array); the `PhantomData` borrow has no runtime
content. -/
structure AResultsIterator where
  next : Nat
  deriving DecidableEq, Repr

/-- The owning iterator `AResultsIntoIterator`: the `next` cursor together
with the moved `AResults` it keeps alive. -/
structure AResultsIntoIterator where
  next : Nat
  a_result : AResults
  deriving DecidableEq, Repr

/-- Embedding of the address builder: read the four bytes at offsets `0..3`
behind `h_addr`, cast each `c_char` to `u8` (`% 256`), and build the address
from them in that order. -/
def ipv4_addr_from_ptr (m : Mem) (h_addr : Nat) : Ipv4Addr :=
  { a := m.byte h_addr 0 % 256
    b := m.byte h_addr 1 % 256
    c := m.byte h_addr 2 % 256
    d := m.byte h_addr 3 % 256 }

/-- Embedding of `iter`: read `h_addr_list` of the pointed-to `hostent` and
start a borrowing iterator there. -/
def AResults.iter (r : AResults) (m : Mem) : AResultsIterator :=
  { next := (m.hostentAt r.hostent).h_addr_list }

/-- Embedding of the consuming conversion: read `h_addr_list` of the
pointed-to `hostent` and start an owning iterator there, moving the record
into it. -/
def AResults.into_iter (r : AResults) (m : Mem) : AResultsIntoIterator :=
  { next := (m.hostentAt r.hostent).h_addr_list, a_result := r }

/-- Embedding of the borrowing iterator advance: read the pointer at
the cursor; if null, yield `none`; otherwise advance the cursor one slot and
yield the address at that pointer.  Memory is returned unchanged (the code
only reads). -/
def AResultsIterator.step (it : AResultsIterator) (m : Mem) :
    (Option Ipv4Addr × AResultsIterator) × Mem :=
  let h_addr := m.addrList it.next
  if h_addr = 0 then
    ((none, it), m)
  else
    ((some (ipv4_addr_from_ptr m h_addr), { next := it.next + 1 }), m)

/-- Embedding of the owning iterator advance: identical cursor
walk; the owned `a_result` is carried along untouched. -/
def AResultsIntoIterator.step (it : AResultsIntoIterator) (m : Mem) :
    (Option Ipv4Addr × AResultsIntoIterator) × Mem :=
  let h_addr := m.addrList it.next
  if h_addr = 0 then
    ((none, it), m)
  else
    ((some (ipv4_addr_from_ptr m h_addr), { next := it.next + 1, a_result := it.a_result }), m)

/-- Iterate the borrowing iterator `k` times, returning the final state. -/
def AResultsIterator.stepN (it : AResultsIterator) (m : Mem) : Nat → AResultsIterator
  | 0 => it
  | k + 1 => ((AResultsIterator.stepN it m k).step m).1.2

/-- Iterate the owning iterator `k` times, returning the final state. -/
def AResultsIntoIterator.stepN (it : AResultsIntoIterator) (m : Mem) :
    Nat → AResultsIntoIterator
  | 0 => it
  | k + 1 => ((AResultsIntoIterator.stepN it m k).step m).1.2

/-- The sequence of addresses the borrowing iterator yields in up to `fuel`
calls to `next` (it stops early at the null sentinel). -/
def iterSeq (m : Mem) (it : AResultsIterator) : Nat → List Ipv4Addr
  | 0 => []
  | fuel + 1 =>
    match it.step m with
    | ((none, _), _) => []
    | ((some ip, it2), _) => ip :: iterSeq m it2 fuel

/-- The sequence of addresses the owning iterator yields in up to `fuel`
calls to `next`. -/
def ownSeq (m : Mem) (it : AResultsIntoIterator) : Nat → List Ipv4Addr
  | 0 => []
  | fuel + 1 =>
    match it.step m with
    | ((none, _), _) => []
    | ((some ip, it2), _) => ip :: ownSeq m it2 fuel

/-- A call into the foreign library recorded by the embedding: a parse of a
buffer with a given length argument, or a free of a `hostent` pointer. -/
inductive FCall where
  | parse (buf : List Nat) (len : Int)
  | free (p : Nat)
  deriving DecidableEq, Repr

/-- Embedding of `parse_from`, over an abstract foreign parser
`fp : buffer → length → (status, hostent pointer)` and an abstract error
mapper `em` (the `ares_error` of the `utils` module).  Returns the `Result`
together with the trace of foreign calls made. -/
def parse_from {E : Type} (fp : List Nat → Int → Int × Nat) (em : Int → E)
    (data : List Nat) : Except E AResults × List FCall :=
  let len := usize_to_c_int data.length
  let out := fp data len
  if out.1 ≠ ARES_SUCCESS then
    (Except.error (em out.1), [FCall.parse data len])
  else
    (Except.ok { hostent := out.2 }, [FCall.parse data len])

/-- Embedding of the destructor: one call to the foreign free routine on the
wrapped pointer. -/
def AResults.dropCalls (r : AResults) : List FCall :=
  [FCall.free r.hostent]

/-- Embedding of the completion callback: on a non-success status, build
an error of the mapped
status without touching the buffer; otherwise take the slice
`from_raw_parts(abuf, alen as usize)` and parse it.  The reconstructed
handler's invocations are returned as a list of the `Result`s it received
(first component), alongside the foreign-call trace (second component). -/
def query_a_callback {E : Type} (fp : List Nat → Int → Int × Nat) (em : Int → E)
    (status : Int) (_timeouts : Int) (abuf : Nat → Nat) (alen : Int) :
    List (Except E AResults) × List FCall :=
  let out :=
    if status ≠ ARES_SUCCESS then
      (Except.error (em status), ([] : List FCall))
    else
      let data := (List.range (c_int_to_usize alen)).map abuf
      parse_from fp em data
  ([out.1], out.2)

/-!
Lifecycle state machine for an `AResults` record, following Rust's ownership
discipline: the record is exclusively owned (by the caller, then possibly by
an owning iterator), and `drop` runs exactly when ownership ends.  A state is
who currently owns the record; an operation is valid only from the states
Rust's borrow checker allows it in, and each valid operation reports the
foreign free calls it makes.
-/

/-- Who currently owns an `AResults`: the caller, the owning iterator it was
moved into, or nobody (already dropped). -/
inductive Owner where
  | record
  | intoIter
  | dropped
  deriving DecidableEq, Repr

/-- An operation on a record: `hostname()`, `iter()` (plus walking a borrowing
iterator), `into_iter()`, `next()` on the owning iterator, or `drop`. -/
inductive Op where
  | hostname
  | iter
  | nextOp
  | intoIter
  | drop
  deriving DecidableEq, Repr

/-- One step of the lifecycle: the new owner and the foreign free calls made,
or `none` when Rust's ownership rules reject the operation (use after move or
after drop).  Only `drop` frees, via `AResults.dropCalls`. -/
def opStep (r : AResults) : Owner → Op → Option (Owner × List FCall)
  | Owner.record, Op.hostname => some (Owner.record, [])
  | Owner.record, Op.iter => some (Owner.record, [])
  | Owner.record, Op.nextOp => some (Owner.record, [])
  | Owner.record, Op.intoIter => some (Owner.intoIter, [])
  | Owner.record, Op.drop => some (Owner.dropped, r.dropCalls)
  | Owner.intoIter, Op.nextOp => some (Owner.intoIter, [])
  | Owner.intoIter, Op.drop => some (Owner.dropped, r.dropCalls)
  | _, _ => none

/-- Run a sequence of operations from a state, accumulating the foreign free
calls; `none` if any operation is invalid. -/
def runOps (r : AResults) : Owner → List Op → Option (Owner × List FCall)
  | o, [] => some (o, [])
  | o, op :: ops =>
    match opStep r o op with
    | none => none
    | some (o2, cs) =>
      match runOps r o2 ops with
      | none => none
      | some (o3, cs2) => some (o3, cs ++ cs2)

/-- Count the free calls on pointer `p` in a trace. -/
def countFree (p : Nat) : List FCall → Nat
  | [] => 0
  | FCall.free q :: rest => (if q = p then 1 else 0) + countFree p rest
  | _ :: rest => countFree p rest

/-- How many frees of the record are still owed from a given ownership state:
one while someone owns it, zero once dropped. -/
def ownerBudget : Owner → Nat
  | Owner.dropped => 0
  | _ => 1

/-- Run the borrowing iterator `k` steps threading the memory through, as the
Rust loop does: the resulting iterator state and the resulting memory. -/
def runIter (it : AResultsIterator) (m : Mem) : Nat → AResultsIterator × Mem
  | 0 => (it, m)
  | k + 1 =>
    let s := runIter it m k
    ((s.1.step s.2).1.2, (s.1.step s.2).2)

/-- A concrete memory fixture: the `hostent` at pointer `1` has its address
array at slot `100`, holding two address cells (pointers `10` and `20`) and
then the null sentinel; every other `hostent` pointer has its (empty) array at
slot `102`.  The cell at `10` holds the bytes of `10.0.0.1`, the cell at `20`
those of `10.0.0.2`. -/
def memA : Mem :=
  { hostentAt := fun p =>
      if p = 1 then { h_name := 50, h_addr_list := 100 }
      else { h_name := 50, h_addr_list := 102 }
    addrList := fun s => if s = 100 then 10 else if s = 101 then 20 else 0
    byte := fun p off =>
      if p = 10 then [10, 0, 0, 1].getD off 0 else [10, 0, 0, 2].getD off 0 }

/-- A concrete foreign-parser fixture: fails with status `1` on the empty
buffer, succeeds with `hostent` pointer `7` otherwise. -/
def fpA : List Nat → Int → Int × Nat :=
  fun d _ => if d = [] then (1, 0) else (0, 7)

lemma countFree_append (p : Nat) (l1 l2 : List FCall) :
    countFree p (l1 ++ l2) = countFree p l1 + countFree p l2 := by
  induction l1 with
  | nil => simp [countFree]
  | cons c rest ih =>
    cases c with
    | parse buf len => simp [countFree, ih]
    | free q => simp [countFree, ih]; omega

/-- Any valid run of operations emits exactly the frees the ownership budget
says it must: frees made plus frees still owed is conserved. -/
lemma runOps_budget (r : AResults) (ops : List Op) :
    ∀ o0 o cs, runOps r o0 ops = some (o, cs) →
      countFree r.hostent cs + ownerBudget o = ownerBudget o0 := by
  induction ops with
  | nil =>
    intro o0 o cs h
    simp [runOps] at h
    simp [h.1, h.2, countFree]
  | cons op ops ih =>
    intro o0 o cs h
    cases hstep : opStep r o0 op with
    | none => simp [runOps, hstep] at h
    | some oc =>
      obtain ⟨o2, cs1⟩ := oc
      cases hrest : runOps r o2 ops with
      | none => simp [runOps, hstep, hrest] at h
      | some oc2 =>
        obtain ⟨o3, cs2⟩ := oc2
        simp [runOps, hstep, hrest] at h
        obtain ⟨ho, hcs⟩ := h
        subst ho
        subst hcs
        have h2 := ih o2 o3 cs2 hrest
        rw [countFree_append]
        cases o0 <;> cases op <;>
          simp [opStep, AResults.dropCalls] at hstep <;>
          obtain ⟨h3, h4⟩ := hstep <;> subst h3 <;> subst h4 <;>
          simp [countFree, ownerBudget] at h2 ⊢ <;> omega

/-!
Theorems settling the claims, each preceded by its claim id.
-/

/-- C1: for both iterator variants, a call to `next` reads the pointer at the
cursor; if that pointer is non-null it builds the address from the pointee's
first four bytes in order, advances the cursor by exactly one slot, and yields
the address; if it is null it yields `none`.  Memory is untouched either
way. -/
theorem next_reads_cursor_and_advances (m : Mem) (it : AResultsIterator)
    (ot : AResultsIntoIterator) :
    (m.addrList it.next = 0 → it.step m = ((none, it), m)) ∧
    (m.addrList it.next ≠ 0 →
      it.step m =
        ((some (ipv4_addr_from_ptr m (m.addrList it.next)),
          { next := it.next + 1 }), m)) ∧
    (m.addrList ot.next = 0 → ot.step m = ((none, ot), m)) ∧
    (m.addrList ot.next ≠ 0 →
      ot.step m =
        ((some (ipv4_addr_from_ptr m (m.addrList ot.next)),
          { next := ot.next + 1, a_result := ot.a_result }), m)) := by
  refine ⟨?_, ?_, ?_, ?_⟩ <;> intro h <;>
    simp [AResultsIterator.step, AResultsIntoIterator.step, h]

/-- Witness for C1 on the concrete fixture `memA`: at slot `100` the cell
pointer is `10` and `next` yields `10.0.0.1` advancing to slot `101`; at slot
`102` the sentinel is hit and `next` yields `none`. -/
theorem next_reads_cursor_and_advances_witness :
    AResultsIterator.step { next := 100 } memA =
      ((some { a := 10, b := 0, c := 0, d := 1 }, { next := 101 }), memA) ∧
    AResultsIntoIterator.step { next := 102, a_result := { hostent := 1 } } memA =
      ((none, { next := 102, a_result := { hostent := 1 } }), memA) :=
  ⟨(next_reads_cursor_and_advances memA { next := 100 }
      { next := 102, a_result := { hostent := 1 } }).2.1 (by decide),
   (next_reads_cursor_and_advances memA { next := 100 }
      { next := 102, a_result := { hostent := 1 } }).2.2.1 (by decide)⟩

/-- C2: `parse_from` returns an error exactly when the foreign parser reports
a non-success status, and then the error is the mapper image of that status;
it never calls the foreign free routine (its trace holds no free); on success
it returns `ok` wrapping exactly the pointer the foreign parser produced.  The
embedding is a total function, so no input makes it panic. -/
theorem parse_from_err_iff {E : Type} (fp : List Nat → Int → Int × Nat)
    (em : Int → E) (data : List Nat) :
    (∀ e : E, (parse_from fp em data).1 = Except.error e ↔
      ((fp data (usize_to_c_int data.length)).1 ≠ ARES_SUCCESS ∧
        e = em (fp data (usize_to_c_int data.length)).1)) ∧
    (∀ p : Nat, FCall.free p ∉ (parse_from fp em data).2) ∧
    ((fp data (usize_to_c_int data.length)).1 = ARES_SUCCESS →
      (parse_from fp em data).1 =
        Except.ok { hostent := (fp data (usize_to_c_int data.length)).2 }) := by
  by_cases h : (fp data (usize_to_c_int data.length)).1 = ARES_SUCCESS <;>
    refine ⟨fun e => ?_, fun p => ?_, fun hs => ?_⟩ <;>
    simp [parse_from, h] <;> tauto

/-- Witness for C2 on the fixture `fpA`: the empty buffer fails with status
`1` and error `1` (mapper `id`), a nonempty buffer succeeds with pointer
`7`. -/
theorem parse_from_err_iff_witness :
    ((parse_from fpA id []).1 = Except.error 1 ↔
      ((fpA [] (usize_to_c_int (0 : Nat))).1 ≠ ARES_SUCCESS ∧
        (1 : Int) = id (fpA [] (usize_to_c_int (0 : Nat))).1)) ∧
    (parse_from fpA id [9]).1 = Except.ok { hostent := 7 } :=
  ⟨(parse_from_err_iff fpA id []).1 1,
   (parse_from_err_iff fpA id [9]).2.2 (by decide)⟩

/-- C5: once `next` has returned `none`, the cursor is unchanged and every
later call returns `none` again: exhaustion is terminal, for both iterator
variants. -/
theorem exhausted_is_terminal (m : Mem) (it : AResultsIterator)
    (ot : AResultsIntoIterator)
    (h : (it.step m).1.1 = none) (h2 : (ot.step m).1.1 = none) :
    ∀ k : Nat,
      it.stepN m k = it ∧ ((it.stepN m k).step m).1.1 = none ∧
      ot.stepN m k = ot ∧ ((ot.stepN m k).step m).1.1 = none := by
  have hnull : m.addrList it.next = 0 := by
    by_cases hc : m.addrList it.next = 0
    · exact hc
    · simp [AResultsIterator.step, hc] at h
  have hnull2 : m.addrList ot.next = 0 := by
    by_cases hc : m.addrList ot.next = 0
    · exact hc
    · simp [AResultsIntoIterator.step, hc] at h2
  intro k
  induction k with
  | zero => exact ⟨rfl, h, rfl, h2⟩
  | succ k ih =>
    obtain ⟨e1, _, e3, _⟩ := ih
    refine ⟨?_, ?_, ?_, ?_⟩ <;>
      simp [AResultsIterator.stepN, AResultsIntoIterator.stepN, e1, e3,
        AResultsIterator.step, AResultsIntoIterator.step, hnull, hnull2]

/-- Witness for C5 on `memA`: slot `102` holds the sentinel, so after an
exhausted `next` two more calls leave both iterators at slot `102`, still
yielding `none`. -/
theorem exhausted_is_terminal_witness :
    AResultsIterator.stepN { next := 102 } memA 2 = { next := 102 } ∧
    ((AResultsIterator.stepN { next := 102 } memA 2).step memA).1.1 = none ∧
    AResultsIntoIterator.stepN { next := 102, a_result := { hostent := 1 } } memA 2 =
      { next := 102, a_result := { hostent := 1 } } ∧
    ((AResultsIntoIterator.stepN { next := 102, a_result := { hostent := 1 } }
        memA 2).step memA).1.1 = none :=
  exhausted_is_terminal memA { next := 102 } { next := 102, a_result := { hostent := 1 } }
    (by decide) (by decide) 2

/-- C8: a record whose address array starts with the null sentinel iterates
to the empty sequence under either variant: the very first `next` is `none`,
and no error value is anywhere in the iterator interface. -/
theorem empty_array_iterates_empty (m : Mem) (r : AResults)
    (h : m.addrList (m.hostentAt r.hostent).h_addr_list = 0) :
    (∀ n : Nat, iterSeq m (r.iter m) n = []) ∧
    (∀ n : Nat, ownSeq m (r.into_iter m) n = []) ∧
    ((r.iter m).step m).1.1 = none ∧
    ((r.into_iter m).step m).1.1 = none := by
  refine ⟨fun n => ?_, fun n => ?_, ?_, ?_⟩
  · cases n <;>
      simp [iterSeq, AResults.iter, AResultsIterator.step, h]
  · cases n <;>
      simp [ownSeq, AResults.into_iter, AResultsIntoIterator.step, h]
  · simp [AResults.iter, AResultsIterator.step, h]
  · simp [AResults.into_iter, AResultsIntoIterator.step, h]

/-- Witness for C8 on `memA`: the record at `hostent` pointer `2` has its
array at slot `102`, whose first slot is the sentinel; iteration is empty. -/
theorem empty_array_iterates_empty_witness :
    iterSeq memA (AResults.iter { hostent := 2 } memA) 5 = [] ∧
    ownSeq memA (AResults.into_iter { hostent := 2 } memA) 5 = [] :=
  ⟨((empty_array_iterates_empty memA { hostent := 2 } (by decide)).1 5),
   ((empty_array_iterates_empty memA { hostent := 2 } (by decide)).2.1 5)⟩

/-- C10: the completion callback ignores the timeouts argument entirely: two
invocations differing only in timeouts pass identical results to the handler
(and make identical foreign calls). -/
theorem callback_ignores_timeouts {E : Type} (fp : List Nat → Int → Int × Nat)
    (em : Int → E) (status t1 t2 : Int) (abuf : Nat → Nat) (alen : Int) :
    query_a_callback fp em status t1 abuf alen =
      query_a_callback fp em status t2 abuf alen := rfl

/-- C3: the completion callback invokes the handler exactly once; on a
non-success status it passes the mapped error, makes no foreign call, and its
behaviour is independent of the buffer and length (the buffer is never read);
on success it parses exactly the supplied buffer/length slice and passes the
parse result to the handler unmodified. -/
theorem callback_branches {E : Type} (fp : List Nat → Int → Int × Nat)
    (em : Int → E) (status t : Int) (abuf : Nat → Nat) (alen : Int) :
    (query_a_callback fp em status t abuf alen).1.length = 1 ∧
    (status ≠ ARES_SUCCESS →
      query_a_callback fp em status t abuf alen = ([Except.error (em status)], []) ∧
      ∀ (abuf2 : Nat → Nat) (alen2 : Int),
        query_a_callback fp em status t abuf2 alen2 =
          query_a_callback fp em status t abuf alen) ∧
    (status = ARES_SUCCESS →
      query_a_callback fp em status t abuf alen =
        ([(parse_from fp em ((List.range (c_int_to_usize alen)).map abuf)).1],
         (parse_from fp em ((List.range (c_int_to_usize alen)).map abuf)).2)) := by
  by_cases h : status = ARES_SUCCESS <;>
    simp [query_a_callback, h]

/-- Witness for C3 on the fixture `fpA` with mapper `id`: status `5` passes
the error `5` with an empty foreign trace; status `0` with a two-byte buffer
of threes passes the result of parsing `[3, 3]`. -/
theorem callback_branches_witness :
    query_a_callback fpA id 5 0 (fun _ => 3) 2 = ([Except.error 5], []) ∧
    query_a_callback fpA id 0 0 (fun _ => 3) 2 =
      ([(parse_from fpA id [3, 3]).1], (parse_from fpA id [3, 3]).2) :=
  ⟨((callback_branches fpA id 5 0 (fun _ => 3) 2).2.1 (by decide)).1,
   (callback_branches fpA id 0 0 (fun _ => 3) 2).2.2 (by decide)⟩

/-- C4: along every operation sequence Rust's ownership rules admit, a record
that has been dropped was freed exactly once, a record still owned has not
been freed at all, and no operation at all is possible on an
already-released record, so the free routine never runs twice on the same
pointer and never on a released one. -/
theorem drop_frees_exactly_once (r : AResults) (ops : List Op) (o : Owner)
    (cs : List FCall) (h : runOps r Owner.record ops = some (o, cs)) :
    countFree r.hostent cs ≤ 1 ∧
    (countFree r.hostent cs = 1 ↔ o = Owner.dropped) ∧
    (∀ op : Op, opStep r Owner.dropped op = none) := by
  have hb := runOps_budget r ops Owner.record o cs h
  refine ⟨?_, ?_, fun op => by cases op <;> rfl⟩
  · cases o <;> simp [ownerBudget] at hb <;> omega
  · cases o <;> simp [ownerBudget] at hb <;> simp [hb]

/-- Witness for C4: the sequence hostname, iter, next, into_iter, next, drop
on the record with pointer `5` is valid, ends dropped, and frees `5` exactly
once. -/
theorem drop_frees_exactly_once_witness :
    runOps { hostent := 5 } Owner.record
        [Op.hostname, Op.iter, Op.nextOp, Op.intoIter, Op.nextOp, Op.drop] =
      some (Owner.dropped, [FCall.free 5]) ∧
    countFree 5 [FCall.free 5] ≤ 1 ∧
    (countFree 5 [FCall.free 5] = 1 ↔ Owner.dropped = Owner.dropped) :=
  ⟨by decide,
   (drop_frees_exactly_once { hostent := 5 }
      [Op.hostname, Op.iter, Op.nextOp, Op.intoIter, Op.nextOp, Op.drop]
      Owner.dropped [FCall.free 5] (by decide)).1,
   (drop_frees_exactly_once { hostent := 5 }
      [Op.hostname, Op.iter, Op.nextOp, Op.intoIter, Op.nextOp, Op.drop]
      Owner.dropped [FCall.free 5] (by decide)).2.1⟩

lemma AResultsIterator.step_mem (it : AResultsIterator) (m : Mem) :
    (it.step m).2 = m := by
  by_cases h : m.addrList it.next = 0 <;> simp [AResultsIterator.step, h]

lemma runIter_mem (it : AResultsIterator) (m : Mem) :
    ∀ j : Nat, (runIter it m j).2 = m := by
  intro j
  induction j with
  | zero => rfl
  | succ j ih =>
    simp [runIter, AResultsIterator.step_mem, ih]

/-- C6: walking a borrowing iterator any number of steps leaves the memory
(and hence the record) unchanged, so a second call to `iter` made at any
point yields exactly the sequence the first call yielded. -/
theorem iter_repeatable (m : Mem) (r : AResults) (k n : Nat) :
    (runIter (r.iter m) m k).2 = m ∧
    iterSeq (runIter (r.iter m) m k).2
        (r.iter (runIter (r.iter m) m k).2) n =
      iterSeq m (r.iter m) n := by
  refine ⟨runIter_mem (r.iter m) m k, ?_⟩
  rw [runIter_mem (r.iter m) m k]

lemma ownSeq_eq_iterSeq (m : Mem) (r : AResults) :
    ∀ n c : Nat,
      ownSeq m { next := c, a_result := r } n = iterSeq m { next := c } n := by
  intro n
  induction n with
  | zero => intro c; rfl
  | succ n ih =>
    intro c
    by_cases h : m.addrList c = 0 <;>
      simp [ownSeq, iterSeq, AResultsIterator.step, AResultsIntoIterator.step, h, ih]

lemma stepN_a_result (m : Mem) (r : AResults) (c : Nat) :
    ∀ k : Nat,
      (AResultsIntoIterator.stepN { next := c, a_result := r } m k).a_result = r := by
  intro k
  induction k with
  | zero => rfl
  | succ k ih =>
    simp only [AResultsIntoIterator.stepN]
    by_cases h : m.addrList
        (AResultsIntoIterator.stepN { next := c, a_result := r } m k).next = 0 <;>
      simp [AResultsIntoIterator.step, h, ih]

/-- C7: the owning iterator obtained by consuming the record yields exactly
the sequence the borrowing iterator yields, and it still owns the record
after any number of steps, so the record's memory is kept alive for the whole
traversal. -/
theorem into_iter_matches_iter (m : Mem) (r : AResults) (n k : Nat) :
    ownSeq m (r.into_iter m) n = iterSeq m (r.iter m) n ∧
    (AResultsIntoIterator.stepN (r.into_iter m) m k).a_result = r :=
  ⟨ownSeq_eq_iterSeq m r n (m.hostentAt r.hostent).h_addr_list,
   stepN_a_result m r (m.hostentAt r.hostent).h_addr_list k⟩

/-- C9: the length `parse_from` hands the foreign parser is the buffer length
cast to a signed 32-bit integer: congruent to the true length modulo `2 ^ 32`
and within the `c_int` range, hence different from the true length whenever
the buffer exceeds `2 ^ 31 - 1` bytes. -/
theorem parse_len_truncated {E : Type} (fp : List Nat → Int → Int × Nat)
    (em : Int → E) (data : List Nat) :
    (parse_from fp em data).2 =
      [FCall.parse data (usize_to_c_int data.length)] ∧
    usize_to_c_int data.length % 2 ^ 32 = (data.length : Int) % 2 ^ 32 ∧
    -2 ^ 31 ≤ usize_to_c_int data.length ∧
    usize_to_c_int data.length < 2 ^ 31 ∧
    (2 ^ 31 - 1 < data.length →
      usize_to_c_int data.length ≠ (data.length : Int)) := by
  refine ⟨?_, ?_, ?_, ?_, ?_⟩
  · by_cases h : (fp data (usize_to_c_int data.length)).1 = ARES_SUCCESS <;>
      simp [parse_from, h]
  all_goals simp only [usize_to_c_int]
  all_goals split <;> push_cast <;> omega

/-- Witness for C9: a buffer of 2 ^ 31 zero bytes is handed to the foreign
parser with the negative length -(2 ^ 31), not its true length. -/
theorem parse_len_truncated_witness :
    usize_to_c_int (List.replicate (2 ^ 31) 0).length ≠
      ((List.replicate (2 ^ 31) 0).length : Int) ∧
    usize_to_c_int (2 ^ 31) = -(2 ^ 31) :=
  ⟨(parse_len_truncated fpA id (List.replicate (2 ^ 31) 0)).2.2.2.2
     (by rw [List.length_replicate]; omega),
   by norm_num [usize_to_c_int]⟩
